import Mathlib

/-!
Shallow embedding of `deutscheflash.py`, a German-gender flashcard trainer.

The embedding models the `WordList` class (a pandas dataframe indexed by word
plus a `structure` dict) and the `_quiz` driver:

* Python dicts (and the word-indexed dataframe) are modelled as association
  lists with insertion-order-preserving overwrite (`dictSet`) and first-match
  lookup (`dictGet`), matching Python dict semantics where a repeated
  assignment to an existing key overwrites it in place.
* Python strings are modelled by `String`; `str.lower` / `str.capitalize` are
  modelled character-wise with the core ASCII `Char.toLower` / `Char.toUpper`,
  which agree with Python on the basic-latin alphabet used by the program.
* Counters are Python ints, modelled as `Int`; the dataframe's `Weight`
  column (a Python float derived as `wrong / (correct + wrong)`) is modelled
  exactly as `ℚ`.
* Exceptions are modelled by `Except WLError`: `ValueError` raises in the
  source carry which message they correspond to, the `AttributeError`
  produced by the `row.wrong` attribute access in `update_weight` (the
  dataframe column is named `Wrong`, capitalised) is `WLError.attributeError`,
  and the `ZeroDivisionError` of `total % n_genders` with an empty gender
  dict is `WLError.zeroDivisionError`.
* Randomness (`DataFrame.sample`) is abstracted as an oracle argument, and
  `input()` as a list of responses; neither affects the claims below.
-/

deriving instance DecidableEq for Except

/-- Python dict lookup: first (= unique) binding of the key, if any. -/
def dictGet {α : Type} : List (String × α) → String → Option α
  | [], _ => none
  | (k, v) :: rest, key => if key = k then some v else dictGet rest key

/-- Python dict assignment `d[k] = v`: overwrite in place if the key exists,
otherwise append at the end (insertion order). -/
def dictSet {α : Type} : List (String × α) → String → α → List (String × α)
  | [], k, v => [(k, v)]
  | (k0, v0) :: rest, k, v =>
      if k = k0 then (k0, v) :: rest else (k0, v0) :: dictSet rest k v

/-- The `GERMAN_GENDERS` dict literal of the source: gender name ↦ article.
Note it has FOUR entries; `plural` and `femenine` share the article `die`. -/
def GERMAN_GENDERS : List (String × String) :=
  [("masculine", "der"), ("neuter", "das"), ("plural", "die"), ("femenine", "die")]

/-- Python `str.lower()` (ASCII range, which covers the program's alphabet). -/
def pyLower (s : String) : String := String.mk (s.data.map Char.toLower)

/-- Python `str.capitalize()`: first character upper-cased, the rest
lower-cased (ASCII range). -/
def pyCapitalize (s : String) : String :=
  match s.data with
  | [] => ""
  | c :: cs => String.mk (Char.toUpper c :: cs.map Char.toLower)

/-- Python `gender[0]` as a one-character string (genders are non-empty). -/
def firstLetter (s : String) : String :=
  match s.data with
  | [] => ""
  | c :: _ => String.singleton c

/-- One row of the `words` dataframe: the non-index columns
`Gender`, `Correct`, `Wrong`, `Weight`. -/
structure Row where
  gender : String
  correct : Int
  wrong : Int
  weight : ℚ
deriving DecidableEq, Repr

/-- The `structure` dict of a `WordList` (the fields the logic reads;
`index` and `column count` are constant bookkeeping). -/
structure TableStructure where
  genders : List (String × String)
  aliases : List (String × String)
  defaultGuesses : Int
deriving DecidableEq, Repr

/-- The error conditions `WordList` methods and the quiz can raise. -/
inductive WLError where
  /-- `ValueError: Unknown gender: ...` from `format_gender`. -/
  | unknownGender (s : String)
  /-- `ValueError: ... is not a valid gender for the current wordlist.` -/
  | invalidGender (s : String)
  /-- `ValueError: ... is already included.` -/
  | duplicateWord (w : String)
  /-- `ValueError: Unknown value for distribution: ...` -/
  | unknownDistribution (s : String)
  /-- `KeyError` from `self.words.loc[word]` on a missing word. -/
  | keyError (w : String)
  /-- `AttributeError`: `row.wrong` read in `update_weight` (no such
  column; the column is `Wrong`). -/
  | attributeError (s : String)
  /-- `ZeroDivisionError` from `total % n_genders` when the gender dict
  is empty. -/
  | zeroDivisionError
deriving DecidableEq, Repr

/-- `WordList._get_aliases`: for each `(gender, article)` in insertion order,
set `aliases[gender[0]] = gender` then `aliases[article] = gender`; a later
gender overwrites an earlier one on a shared key. -/
def getAliases (genders : List (String × String)) : List (String × String) :=
  genders.foldl
    (fun aliases gv => dictSet (dictSet aliases (firstLetter gv.1) gv.1) gv.2 gv.1)
    []

/-- The in-memory `WordList`: word-indexed rows plus the structure dict. -/
structure WordList where
  words : List (String × Row)
  struct : TableStructure
deriving DecidableEq, Repr

/-- `WordList.new(genders, score_inertia)`: empty table with the given
configuration (`"default guesses"` stores `score_inertia`). -/
def WordList.new (genders : List (String × String)) (scoreInertia : Int) : WordList :=
  { words := []
    struct :=
      { genders := genders
        aliases := getAliases genders
        defaultGuesses := scoreInertia } }

/-- The wordlist `main` starts from on first run: `new()` with the default
arguments `GERMAN_GENDERS` and `score_inertia = 2`. -/
def defaultWordList : WordList := WordList.new GERMAN_GENDERS 2

/-- `len(self.structure["genders"])` as a Python int. -/
def WordList.nGenders (wl : WordList) : Int := (wl.struct.genders.length : Int)

/-- `WordList.format_gender`: lower-case the input, return it if it is a
gender name, else resolve it through the alias dict, else raise. -/
def WordList.format_gender (wl : WordList) (genderString : String) : Except WLError String :=
  let g := pyLower genderString
  if (dictGet wl.struct.genders g).isSome then .ok g
  else
    match dictGet wl.struct.aliases g with
    | some v => .ok v
    | none => .error (.unknownGender g)

/-- The row `WordList.add` inserts for a new word:
`[gender, default_guesses, default_guesses * (n_genders - 1),
(n_genders - 1) / n_genders]`. -/
def freshRow (st : TableStructure) (gender : String) : Row :=
  { gender := gender
    correct := st.defaultGuesses
    wrong := st.defaultGuesses * ((st.genders.length : Int) - 1)
    weight := ((st.genders.length : ℚ) - 1) / (st.genders.length : ℚ) }

/-- `WordList.add`: resolve the gender, capitalize the word, defensively
re-check the gender, reject duplicates, then insert the fresh row. -/
def WordList.add (wl : WordList) (gender word : String) : Except WLError WordList :=
  match wl.format_gender gender with
  | .error e => .error e
  | .ok g =>
      let w := pyCapitalize word
      if (dictGet wl.struct.genders g).isNone then .error (.invalidGender g)
      else if (dictGet wl.words w).isSome then .error (.duplicateWord w)
      else .ok { wl with words := dictSet wl.words w (freshRow wl.struct g) }

/-- The row transformation inside `WordList.update_weight`, acting on the
row `self.words.loc[word]`:
increment `Correct` or `Wrong`; at a decay checkpoint
(`not total % n_genders`; `%` tests divisibility, identical in Python and
Lean when the remainder is compared with 0) either trim both counters
(`Correct` truthy, i.e. nonzero) or fall into the `row.wrong -= n_genders`
line, which raises `AttributeError` because the column is named `Wrong`;
finally recompute `Weight = Wrong / (Correct + Wrong)`. -/
def updateRow (nGenders : Int) (row : Row) (guess : Bool) : Except WLError Row :=
  let row1 :=
    if guess then { row with correct := row.correct + 1 }
    else { row with wrong := row.wrong + 1 }
  let total := row1.correct + row1.wrong
  let afterDecay : Except WLError Row :=
    if nGenders = 0 then .error .zeroDivisionError
    else if total % nGenders = 0 then
      if row1.correct ≠ 0 then
        let wrongsToThrow := min (row1.wrong - 1) (nGenders - 1)
        .ok { row1 with
                wrong := row1.wrong - wrongsToThrow
                correct := row1.correct - (nGenders - wrongsToThrow) }
      else .error (.attributeError "wrong")
    else .ok row1
  afterDecay.map fun r =>
    { r with weight := (r.wrong : ℚ) / ((r.correct : ℚ) + (r.wrong : ℚ)) }

/-- `WordList.update_weight`: look up the row, transform it, write it back. -/
def WordList.update_weight (wl : WordList) (word : String) (guess : Bool) :
    Except WLError WordList :=
  match dictGet wl.words word with
  | none => .error (.keyError word)
  | some row =>
      (updateRow wl.nGenders row guess).map fun r =>
        { wl with words := dictSet wl.words word r }

/-- `WordList.get_words`: validate the distribution, then draw a sample of
`(word, gender)` pairs.  `DataFrame.sample` is randomized, so it is
abstracted as the oracle `sample n weights`; `weights = some "Weight"`
records the weighted draw of the source. -/
def WordList.get_words (wl : WordList) (n : Nat) (distribution : String)
    (sample : List (String × Row) → Nat → Option String → List (String × Row)) :
    Except WLError (List (String × String)) :=
  if distribution = "uniform" then
    .ok ((sample wl.words n none).map fun p => (p.1, p.2.gender))
  else if distribution = "weighted" then
    .ok ((sample wl.words n (some "Weight")).map fun p => (p.1, p.2.gender))
  else .error (.unknownDistribution distribution)

/-- The loop of `_quiz` over the sampled `(word, gender)` pairs, threading
the `answered`/`correct` tallies and the mutated wordlist.  Each iteration
consumes one `input()` response (lower-cased by the source before any other
check); a sentinel `quit`/`exit` response breaks out, an unresolvable guess
counts as answered but is skipped, otherwise the guess is compared with the
stored gender and `update_weight` is called with the outcome. -/
def quizGo (wl : WordList) :
    List (String × String) → List String → Nat → Nat →
    Except WLError (Nat × Nat × WordList)
  | [], _, answered, correct => .ok (correct, answered, wl)
  | (word, gender) :: rest, responses, answered, correct =>
      let guess := pyLower (responses.headD "")
      if guess = "quit" ∨ guess = "exit" then .ok (correct, answered, wl)
      else
        match wl.format_gender guess with
        | .error _ => quizGo wl rest responses.tail (answered + 1) correct
        | .ok g =>
            let accurate := gender == g
            match wl.update_weight word accurate with
            | .error e => .error e
            | .ok wl1 =>
                quizGo wl1 rest responses.tail (answered + 1)
                  (if accurate then correct + 1 else correct)

/-- `_quiz(wordlist, quiz_length)` with the sampled words and the responses
made explicit: returns `(correct, answered, answered == quiz_length)`
together with the final wordlist. -/
def quiz (wl : WordList) (ws : List (String × String)) (responses : List String)
    (quizLength : Nat) : Except WLError (Nat × Nat × Bool × WordList) :=
  (quizGo wl ws responses 0 0).map fun r => (r.1, r.2.1, r.2.1 == quizLength, r.2.2)

/-- `k` successive calls of `update_weight`'s row transformation with a fixed
guess, stopping at the first raised exception. -/
def repeatUpdate (nGenders : Int) (guess : Bool) (r : Except WLError Row) :
    Nat → Except WLError Row
  | 0 => r
  | k + 1 => (repeatUpdate nGenders guess r k).bind fun row => updateRow nGenders row guess

/-- The weight after `k` consecutive correct guesses on a word freshly added
to the default wordlist (0 if an exception occurred). -/
def weightAfter (k : Nat) : ℚ :=
  match repeatUpdate defaultWordList.nGenders true
      (.ok (freshRow defaultWordList.struct "masculine")) k with
  | .ok r => r.weight
  | .error _ => 0

/-- The wordlist obtained by adding `("der", "hund")` to the fresh default
list: one record, stored under the capitalized key `Hund`. -/
def wlHund : WordList :=
  { defaultWordList with words := [("Hund", freshRow defaultWordList.struct "masculine")] }

/-- The wordlist obtained by adding `("p", "sachen")` to the fresh default
list: one `plural` record under the key `Sachen`. -/
def wlSachen : WordList :=
  { defaultWordList with words := [("Sachen", freshRow defaultWordList.struct "plural")] }

/-- A default wordlist whose single record has reached `Correct = 0`,
`Wrong = 11` (the state of a fresh word after 11 consecutive wrong
guesses), one wrong guess away from the `Correct == 0` decay branch. -/
def wlStuck : WordList :=
  { defaultWordList with
      words := [("Hund", { gender := "masculine", correct := 0, wrong := 11, weight := 1 })] }

example : freshRow defaultWordList.struct "masculine" =
    { gender := "masculine", correct := 2, wrong := 6, weight := 3 / 4 } := by
  norm_num [freshRow, defaultWordList, WordList.new, GERMAN_GENDERS]
example : defaultWordList.format_gender "DER" = .ok "masculine" := by decide
example : defaultWordList.format_gender "die" = .ok "femenine" := by decide
example : defaultWordList.format_gender "xyz" = .error (.unknownGender "xyz") := by decide
example : weightAfter 4 = 3 / 8 := by
  norm_num [weightAfter, repeatUpdate, updateRow, freshRow, defaultWordList,
    WordList.new, GERMAN_GENDERS, WordList.nGenders, Except.map, Except.bind, Int.min_def]

/-! ## Spec-side row transformations

These definitions follow the WORDS of the specification of `update_weight`
(claim C1): increment one counter by exactly 1; at a decay checkpoint with
`correct > 0`, remove `trim = min(wrong - 1, gender_count - 1)` wrong answers
and `gender_count - trim` correct answers; recompute the weight.  They are
compared with the code-derived `updateRow` in the theorems below. -/

/-- The spec's post-increment `correct`. -/
def specIncCorrect (r : Row) (guess : Bool) : Int :=
  if guess then r.correct + 1 else r.correct

/-- The spec's post-increment `wrong`. -/
def specIncWrong (r : Row) (guess : Bool) : Int :=
  if guess then r.wrong else r.wrong + 1

/-- The spec's `trim = min(wrong - 1, gender_count - 1)`. -/
def specTrim (nGenders w1 : Int) : Int := min (w1 - 1) (nGenders - 1)

/-- The record the spec prescribes after a decay checkpoint with
`correct > 0`. -/
def specDecayedRow (nGenders : Int) (r : Row) (guess : Bool) : Row :=
  let c1 := specIncCorrect r guess
  let w1 := specIncWrong r guess
  let t := specTrim nGenders w1
  { gender := r.gender
    correct := c1 - (nGenders - t)
    wrong := w1 - t
    weight := ((w1 - t : Int) : ℚ) / (((c1 - (nGenders - t) : Int) : ℚ) + ((w1 - t : Int) : ℚ)) }

/-- The record the spec prescribes when the increment does not land on a
decay checkpoint: counters incremented, weight recomputed. -/
def specSteppedRow (r : Row) (guess : Bool) : Row :=
  let c1 := specIncCorrect r guess
  let w1 := specIncWrong r guess
  { gender := r.gender
    correct := c1
    wrong := w1
    weight := ((w1 : Int) : ℚ) / (((c1 : Int) : ℚ) + ((w1 : Int) : ℚ)) }

/-! ## Helper lemmas -/

theorem dictGet_dictSet_self {α : Type} (l : List (String × α)) (k : String) (v : α) :
    dictGet (dictSet l k v) k = some v := by
  induction l with
  | nil => simp [dictGet, dictSet]
  | cons hd tl ih =>
      by_cases hk : k = hd.1
      · simp [dictGet, dictSet, hk]
      · simp [dictGet, dictSet, hk, ih]

theorem dictGet_eq_some_mem {α : Type} {l : List (String × α)} {k : String} {v : α}
    (h : dictGet l k = some v) : (k, v) ∈ l := by
  induction l with
  | nil => simp [dictGet] at h
  | cons hd tl ih =>
      by_cases hk : k = hd.1
      · rw [dictGet, if_pos hk] at h
        have hkv : (k, v) = hd := by cases hd; simp_all
        rw [hkv]
        exact List.mem_cons_self _ _
      · rw [dictGet, if_neg hk] at h
        exact List.mem_cons_of_mem _ (ih h)

theorem mem_dictSet {α : Type} {l : List (String × α)} {k : String} {v : α} {p : String × α}
    (hp : p ∈ dictSet l k v) : p = (k, v) ∨ p ∈ l := by
  induction l with
  | nil => simpa [dictSet] using hp
  | cons hd tl ih =>
      by_cases hk : k = hd.1
      · rw [dictSet, if_pos hk] at hp
        rcases List.mem_cons.mp hp with h1 | h2
        · left; cases hd; simp_all
        · right; exact List.mem_cons_of_mem _ h2
      · rw [dictSet, if_neg hk] at hp
        rcases List.mem_cons.mp hp with h1 | h2
        · right; rw [h1]; exact List.mem_cons_self _ _
        · rcases ih h2 with h3 | h4
          · left; exact h3
          · right; exact List.mem_cons_of_mem _ h4

theorem char_toNat_ofNat_valid {n : Nat} (h : n < 55296) : (Char.ofNat n).toNat = n := by
  have hv : n.isValidChar := Or.inl h
  simp [Char.ofNat, dif_pos hv, Char.ofNatAux, Char.toNat, UInt32.toNat]

theorem char_eq_of_toNat_eq {a b : Char} (h : a.toNat = b.toNat) : a = b := by
  apply Char.eq_of_val_eq
  exact UInt32.ext h

/-- ASCII case folding: two characters with the same lower-case form have the
same upper-case form. -/
theorem toUpper_eq_of_toLower_eq {a b : Char} (h : a.toLower = b.toLower) :
    a.toUpper = b.toUpper := by
  by_cases ha : 65 ≤ a.toNat ∧ a.toNat ≤ 90 <;> by_cases hb : 65 ≤ b.toNat ∧ b.toNat ≤ 90
  · rw [Char.toLower, Char.toLower] at h
    rw [if_pos (by exact ⟨ha.1, ha.2⟩), if_pos (by exact ⟨hb.1, hb.2⟩)] at h
    have h2 : a.toNat + 32 = b.toNat + 32 := by
      have hcg := congrArg Char.toNat h
      rwa [char_toNat_ofNat_valid (by omega), char_toNat_ofNat_valid (by omega)] at hcg
    have hab : a = b := char_eq_of_toNat_eq (by omega)
    rw [hab]
  · rw [Char.toLower, Char.toLower] at h
    rw [if_pos (by exact ⟨ha.1, ha.2⟩), if_neg (by exact fun hc => hb ⟨hc.1, hc.2⟩)] at h
    have hbn : b.toNat = a.toNat + 32 := by
      have hcg := congrArg Char.toNat h
      rw [char_toNat_ofNat_valid (by omega)] at hcg
      omega
    rw [Char.toUpper, Char.toUpper]
    rw [if_neg (by omega), if_pos (by omega)]
    have hsub : b.toNat - 32 = a.toNat := by omega
    rw [hsub]
    exact (char_eq_of_toNat_eq (char_toNat_ofNat_valid (by omega))).symm
  · rw [Char.toLower, Char.toLower] at h
    rw [if_neg (by exact fun hc => ha ⟨hc.1, hc.2⟩), if_pos (by exact ⟨hb.1, hb.2⟩)] at h
    have han : a.toNat = b.toNat + 32 := by
      have hcg := congrArg Char.toNat h
      rw [char_toNat_ofNat_valid (by omega)] at hcg
      omega
    rw [Char.toUpper, Char.toUpper]
    rw [if_pos (by omega), if_neg (by omega)]
    have hsub : a.toNat - 32 = b.toNat := by omega
    rw [hsub]
    exact char_eq_of_toNat_eq (char_toNat_ofNat_valid (by omega))
  · rw [Char.toLower, Char.toLower, if_neg (by exact fun hc => ha ⟨hc.1, hc.2⟩),
      if_neg (by exact fun hc => hb ⟨hc.1, hc.2⟩)] at h
    rw [h]

/-- Two strings that agree after `str.lower()` agree after
`str.capitalize()` — the normalization `add` applies to word keys. -/
theorem pyCapitalize_eq_of_pyLower_eq {s t : String} (h : pyLower s = pyLower t) :
    pyCapitalize s = pyCapitalize t := by
  have hd : s.data.map Char.toLower = t.data.map Char.toLower := by
    have hcg := congrArg String.data h
    simpa [pyLower] using hcg
  cases hs : s.data with
  | nil =>
      cases ht : t.data with
      | nil => simp [pyCapitalize, hs, ht]
      | cons b bs => rw [hs, ht] at hd; simp at hd
  | cons a as =>
      cases ht : t.data with
      | nil => rw [hs, ht] at hd; simp at hd
      | cons b bs =>
          rw [hs, ht] at hd
          simp only [List.map_cons, List.cons.injEq] at hd
          have hcs : pyCapitalize s = String.mk (a.toUpper :: as.map Char.toLower) := by
            simp [pyCapitalize, hs]
          have hct : pyCapitalize t = String.mk (b.toUpper :: bs.map Char.toLower) := by
            simp [pyCapitalize, ht]
          rw [hcs, hct, toUpper_eq_of_toLower_eq hd.1, hd.2]

/-! ## Claim theorems -/

/-- C8: for every `n` and every distribution string other than `"uniform"` or
`"weighted"`, `get_words(n, distribution)` fails with the unknown-distribution
error (and therefore yields no `(word, gender)` pairs). -/
theorem get_words_unknown_distribution (wl : WordList) (n : Nat) (distribution : String)
    (sample : List (String × Row) → Nat → Option String → List (String × Row))
    (hu : distribution ≠ "uniform") (hw : distribution ≠ "weighted") :
    wl.get_words n distribution sample = .error (.unknownDistribution distribution) := by
  simp [WordList.get_words, hu, hw]

/-- Witness for C8 at the concrete distribution `"gaussian"`. -/
theorem get_words_unknown_distribution_witness :
    defaultWordList.get_words 5 "gaussian" (fun _ _ _ => []) =
      .error (.unknownDistribution "gaussian") :=
  get_words_unknown_distribution defaultWordList 5 "gaussian" (fun _ _ _ => [])
    (by decide) (by decide)

/-- C9: for every positive quiz length, if the first response is the sentinel
`quit` (or `exit`, in any casing, since `_quiz` lower-cases the input), the
fixed-length quiz returns `(correct = 0, answered = 0, completed = false)`
without scoring the item: the wordlist it returns is the unchanged input
wordlist, so every record's `Correct`/`Wrong`/`Weight` is untouched. -/
theorem quiz_quit_first_response (wl : WordList) (ws : List (String × String))
    (r : String) (rs : List String) (quizLength : Nat)
    (hlen : 0 < quizLength)
    (hr : pyLower r = "quit" ∨ pyLower r = "exit") :
    quiz wl ws (r :: rs) quizLength = .ok (0, 0, false, wl) := by
  have h0 : (0 == quizLength) = false := by
    simp only [beq_eq_false_iff_ne]
    omega
  cases ws with
  | nil => simp [quiz, quizGo, Except.map, h0]
  | cons hd tl =>
      obtain ⟨word, gender⟩ := hd
      rcases hr with hq | hq <;> simp [quiz, quizGo, Except.map, hq, h0]

/-- Witness for C9: a one-word quiz of length 5 quit immediately. -/
theorem quiz_quit_first_response_witness :
    quiz wlHund [("Hund", "masculine")] ["quit"] 5 = .ok (0, 0, false, wlHund) :=
  quiz_quit_first_response wlHund [("Hund", "masculine")] "quit" [] 5 (by omega)
    (Or.inl (by decide))

/-- C5 (counterexample): the default gender configuration `GERMAN_GENDERS`
does NOT have 3 labels, and a freshly added word's weight is NOT `2/3`:
the dict has four entries (`plural` and `femenine` both map to `die`), so
the fresh weight is `(4 - 1)/4 = 3/4`. -/
theorem default_config_not_three_genders :
    GERMAN_GENDERS.length ≠ 3 ∧
      (freshRow defaultWordList.struct "masculine").weight ≠ 2 / 3 := by
  constructor
  · decide
  · norm_num [freshRow, defaultWordList, WordList.new, GERMAN_GENDERS]

/-- C5 (amended): the default gender configuration has exactly 4 labels, so
a word freshly added under the default configuration (here via
`add("der", "hund")`) has weight exactly `3/4`. -/
theorem default_config_four_genders_fresh_weight :
    GERMAN_GENDERS.length = 4 ∧
      defaultWordList.add "der" "hund" = .ok wlHund ∧
      (freshRow defaultWordList.struct "masculine").weight = 3 / 4 := by
  refine ⟨by decide, by rfl, ?_⟩
  norm_num [freshRow, defaultWordList, WordList.new, GERMAN_GENDERS]

/-- C2 (code evaluated at the failing input): at a decay checkpoint with
`Correct == 0` the source executes `row.wrong -= n_genders`, but the column
is named `Wrong`, so the row has no attribute `wrong` and pandas raises
`AttributeError` — `wrong` is neither decremented nor clamped and the weight
is never recomputed.  First conjunct: a single call on a record with
`Correct = 0`, `Wrong = 11` and a wrong guess raises.  Second conjunct: that
state is reachable — 12 consecutive wrong guesses on a freshly added word
end in the exception. -/
theorem update_weight_zero_correct_attribute_error :
    wlStuck.update_weight "Hund" false = .error (.attributeError "wrong") ∧
      repeatUpdate defaultWordList.nGenders false
          (.ok (freshRow defaultWordList.struct "masculine")) 12 =
        .error (.attributeError "wrong") := by
  constructor <;> decide

/-- C6: starting from a freshly added word on the default wordlist
(`score_inertia = 2`, `gender_count = 4`), `score_inertia * gender_count = 8`
consecutive correct guesses drive the weight strictly downward at every
step: `3/4 > 2/3 > 3/5 > 6/11 > 3/8 > 1/3 > 3/10 > 3/11 > 1/8`. -/
theorem fresh_word_weight_strictly_decreases :
    repeatUpdate defaultWordList.nGenders true
        (.ok (freshRow defaultWordList.struct "masculine")) 8 =
      .ok { gender := "masculine", correct := 7, wrong := 1, weight := 1 / 8 } ∧
    weightAfter 1 < weightAfter 0 ∧ weightAfter 2 < weightAfter 1 ∧
    weightAfter 3 < weightAfter 2 ∧ weightAfter 4 < weightAfter 3 ∧
    weightAfter 5 < weightAfter 4 ∧ weightAfter 6 < weightAfter 5 ∧
    weightAfter 7 < weightAfter 6 ∧ weightAfter 8 < weightAfter 7 := by
  norm_num [weightAfter, repeatUpdate, updateRow, freshRow, defaultWordList,
    WordList.new, GERMAN_GENDERS, WordList.nGenders, Except.map, Except.bind, Int.min_def]

/-- C10: in the default alias map each alias resolves to exactly one
canonical gender and later genders overwrite earlier ones on collision:
`plural` and `femenine` share the article `die`, and since `femenine` is
inserted last, `aliases["die"] = "femenine"`.  Consequently
`format_gender("die")` returns `femenine`, no article resolves to `plural`
(`der`/`das`/`die` resolve to `masculine`/`neuter`/`femenine`), and a quiz
answer `die` for a word stored with gender `plural` is judged incorrect:
on a one-word quiz over a fresh `plural` word it scores `0` correct out of
`1` answered and increments the word's `Wrong` count. -/
theorem alias_die_maps_to_femenine :
    getAliases GERMAN_GENDERS =
        [("m", "masculine"), ("der", "masculine"), ("n", "neuter"), ("das", "neuter"),
          ("p", "plural"), ("die", "femenine"), ("f", "femenine")] ∧
      defaultWordList.format_gender "die" = .ok "femenine" ∧
      defaultWordList.format_gender "der" = .ok "masculine" ∧
      defaultWordList.format_gender "das" = .ok "neuter" ∧
      defaultWordList.add "p" "sachen" = .ok wlSachen ∧
      quiz wlSachen [("Sachen", "plural")] ["die"] 1 =
        .ok (0, 1, true,
          { wlSachen with
              words := [("Sachen",
                { gender := "plural", correct := 2, wrong := 7, weight := 7 / 9 })] }) := by
  refine ⟨by decide, by decide, by decide, by decide, by rfl, ?_⟩
  have h2 : ((7 : Int) : ℚ) / (((2 : Int) : ℚ) + ((7 : Int) : ℚ)) = 7 / 9 := by norm_num
  rw [← h2]
  rfl

/-- At a decay checkpoint with nonzero post-increment `Correct`, `updateRow`
produces exactly the record the spec describes. -/
theorem updateRow_checkpoint_pos {n : Int} {r : Row} {guess : Bool}
    (hnz : n ≠ 0)
    (hmod : (specIncCorrect r guess + specIncWrong r guess) % n = 0)
    (hc : specIncCorrect r guess ≠ 0) :
    updateRow n r guess = .ok (specDecayedRow n r guess) := by
  cases guess <;>
    simp_all [updateRow, specIncCorrect, specIncWrong, specDecayedRow, specTrim,
      Except.map]

/-- Away from decay checkpoints, `updateRow` merely increments one counter
and recomputes the weight. -/
theorem updateRow_no_checkpoint {n : Int} {r : Row} {guess : Bool}
    (hnz : n ≠ 0)
    (hmod : (specIncCorrect r guess + specIncWrong r guess) % n ≠ 0) :
    updateRow n r guess = .ok (specSteppedRow r guess) := by
  cases guess <;>
    simp_all [updateRow, specIncCorrect, specIncWrong, specSteppedRow, Except.map]

/-- With an empty gender dict, `total % n_genders` raises. -/
theorem updateRow_zero {n : Int} {r : Row} {g : Bool} (h0 : n = 0) :
    updateRow n r g = .error .zeroDivisionError := by
  subst h0
  cases g <;> simp [updateRow, Except.map]

/-- At a decay checkpoint with `Correct == 0`, the `row.wrong` attribute
access raises. -/
theorem updateRow_checkpoint_zeroCorrect {n : Int} {r : Row} {g : Bool}
    (hnz : n ≠ 0)
    (hmod : (specIncCorrect r g + specIncWrong r g) % n = 0)
    (hc : specIncCorrect r g = 0) :
    updateRow n r g = .error (.attributeError "wrong") := by
  cases g <;> simp_all [updateRow, specIncCorrect, specIncWrong, Except.map]

/-- A successful `updateRow` keeps a non-negative `Wrong` non-negative. -/
theorem updateRow_wrong_nonneg {n : Int} {r r' : Row} {g : Bool} (hw : 0 ≤ r.wrong)
    (h : updateRow n r g = .ok r') : 0 ≤ r'.wrong := by
  by_cases h0 : n = 0
  · rw [updateRow_zero h0] at h
    exact absurd h (by simp)
  · by_cases hm : (specIncCorrect r g + specIncWrong r g) % n = 0
    · by_cases hc : specIncCorrect r g = 0
      · rw [updateRow_checkpoint_zeroCorrect h0 hm hc] at h
        exact absurd h (by simp)
      · rw [updateRow_checkpoint_pos h0 hm hc] at h
        injection h with h2
        rw [← h2]
        cases g <;> simp only [specDecayedRow, specTrim, specIncWrong, specIncCorrect] <;> omega
    · rw [updateRow_no_checkpoint h0 hm] at h
      injection h with h2
      rw [← h2]
      cases g <;> simp only [specSteppedRow, specIncWrong, specIncCorrect] <;> omega

/-- C1: for a record present in the table, `update_weight` first increments
`correct` (guess true) or `wrong` (guess false) by exactly 1, and applies
decay IF AND ONLY IF the resulting `correct + wrong` is an exact multiple of
`gender_count`.  In the decay case with positive post-increment `correct`,
the stored record becomes `specDecayedRow` — `trim = min(wrong - 1,
gender_count - 1)` is subtracted from `wrong` and `gender_count - trim` from
`correct`, removing exactly `gender_count` observations — and in the
non-checkpoint case the record is only incremented, with the weight
recomputed either way. -/
theorem update_weight_checkpoint_characterization (wl : WordList) (word : String)
    (guess : Bool) (r : Row)
    (hr : dictGet wl.words word = some r) (hn : 0 < wl.nGenders) :
    ((specIncCorrect r guess + specIncWrong r guess) % wl.nGenders = 0 →
        0 < specIncCorrect r guess →
        wl.update_weight word guess =
          .ok { wl with
                  words := dictSet wl.words word (specDecayedRow wl.nGenders r guess) } ∧
          (specDecayedRow wl.nGenders r guess).correct +
              (specDecayedRow wl.nGenders r guess).wrong =
            specIncCorrect r guess + specIncWrong r guess - wl.nGenders) ∧
    ((specIncCorrect r guess + specIncWrong r guess) % wl.nGenders ≠ 0 →
        wl.update_weight word guess =
          .ok { wl with words := dictSet wl.words word (specSteppedRow r guess) }) := by
  have hnz : wl.nGenders ≠ 0 := by omega
  constructor
  · intro hmod hpos
    constructor
    · simp only [WordList.update_weight, hr]
      rw [updateRow_checkpoint_pos hnz hmod (by omega)]
      rfl
    · simp only [specDecayedRow, specTrim]
      ring
  · intro hmod
    simp only [WordList.update_weight, hr]
    rw [updateRow_no_checkpoint hnz hmod]
    rfl

/-- Witness for C1 on the concrete list `wlHund` (record `Correct = 2`,
`Wrong = 6`) with a correct guess: `2 + 1 + 6 = 9` is not a multiple of 4,
so the no-decay branch applies. -/
theorem update_weight_checkpoint_characterization_witness :
    ((specIncCorrect (freshRow defaultWordList.struct "masculine") true +
            specIncWrong (freshRow defaultWordList.struct "masculine") true) %
          wlHund.nGenders = 0 →
        0 < specIncCorrect (freshRow defaultWordList.struct "masculine") true →
        wlHund.update_weight "Hund" true =
          .ok { wlHund with
                  words := dictSet wlHund.words "Hund"
                    (specDecayedRow wlHund.nGenders
                      (freshRow defaultWordList.struct "masculine") true) } ∧
          (specDecayedRow wlHund.nGenders
                (freshRow defaultWordList.struct "masculine") true).correct +
              (specDecayedRow wlHund.nGenders
                (freshRow defaultWordList.struct "masculine") true).wrong =
            specIncCorrect (freshRow defaultWordList.struct "masculine") true +
                specIncWrong (freshRow defaultWordList.struct "masculine") true -
              wlHund.nGenders) ∧
    ((specIncCorrect (freshRow defaultWordList.struct "masculine") true +
            specIncWrong (freshRow defaultWordList.struct "masculine") true) %
          wlHund.nGenders ≠ 0 →
        wlHund.update_weight "Hund" true =
          .ok { wlHund with
                  words := dictSet wlHund.words "Hund"
                    (specSteppedRow (freshRow defaultWordList.struct "masculine") true) }) :=
  update_weight_checkpoint_characterization wlHund "Hund" true
    (freshRow defaultWordList.struct "masculine") (by rfl) (by decide)

/-- C4: for every valid gender input (one that `format_gender` resolves and
that passes the defensive membership check) and every word whose normalized
form is not yet present, `add` succeeds and inserts exactly the record
`correct = score_inertia`, `wrong = score_inertia * (gender_count - 1)`,
`weight = (gender_count - 1) / gender_count`. -/
theorem add_inserts_fresh_record (wl : WordList) (gender word gc : String)
    (hg : wl.format_gender gender = .ok gc)
    (hgc : (dictGet wl.struct.genders gc).isSome = true)
    (hw : dictGet wl.words (pyCapitalize word) = none) :
    wl.add gender word =
      .ok { wl with words := dictSet wl.words (pyCapitalize word) (freshRow wl.struct gc) } ∧
    (freshRow wl.struct gc).correct = wl.struct.defaultGuesses ∧
    (freshRow wl.struct gc).wrong = wl.struct.defaultGuesses * (wl.nGenders - 1) ∧
    (freshRow wl.struct gc).weight =
      ((wl.struct.genders.length : ℚ) - 1) / (wl.struct.genders.length : ℚ) := by
  have hn : (dictGet wl.struct.genders gc).isNone = false := by
    cases h' : dictGet wl.struct.genders gc with
    | none => rw [h'] at hgc; simp at hgc
    | some v => simp
  have hs : (dictGet wl.words (pyCapitalize word)).isSome = false := by
    rw [hw]; rfl
  refine ⟨?_, rfl, rfl, rfl⟩
  simp only [WordList.add, hg, hn, hs, Bool.false_eq_true, if_false]

/-- Witness for C4: adding `("der", "hund")` to the fresh default list. -/
theorem add_inserts_fresh_record_witness :
    defaultWordList.add "der" "hund" =
      .ok { defaultWordList with
              words := dictSet defaultWordList.words (pyCapitalize "hund")
                (freshRow defaultWordList.struct "masculine") } ∧
    (freshRow defaultWordList.struct "masculine").correct =
      defaultWordList.struct.defaultGuesses ∧
    (freshRow defaultWordList.struct "masculine").wrong =
      defaultWordList.struct.defaultGuesses * (defaultWordList.nGenders - 1) ∧
    (freshRow defaultWordList.struct "masculine").weight =
      ((defaultWordList.struct.genders.length : ℚ) - 1) /
        (defaultWordList.struct.genders.length : ℚ) :=
  add_inserts_fresh_record defaultWordList "der" "hund" "masculine"
    (by decide) (by decide) (by decide)

/-- Inversion of a successful `add`: the gender resolved, both membership
checks passed, and the result is the input list with the fresh record
inserted under the capitalized key. -/
theorem add_ok_inversion {wl wl' : WordList} {g w : String}
    (h : wl.add g w = .ok wl') :
    ∃ gc, wl.format_gender g = .ok gc ∧
      (dictGet wl.struct.genders gc).isNone = false ∧
      dictGet wl.words (pyCapitalize w) = none ∧
      wl' = { wl with words := dictSet wl.words (pyCapitalize w) (freshRow wl.struct gc) } := by
  cases hfm : wl.format_gender g with
  | error e =>
      simp only [WordList.add, hfm] at h
      exact absurd h (by simp)
  | ok gc =>
      simp only [WordList.add, hfm] at h
      by_cases h1 : (dictGet wl.struct.genders gc).isNone = true
      · rw [if_pos h1] at h
        exact absurd h (by simp)
      · rw [if_neg h1] at h
        by_cases h2 : (dictGet wl.words (pyCapitalize w)).isSome = true
        · rw [if_pos h2] at h
          exact absurd h (by simp)
        · rw [if_neg h2] at h
          injection h with h3
          have hb : (dictGet wl.struct.genders gc).isNone = false := by
            cases hy : (dictGet wl.struct.genders gc).isNone with
            | false => rfl
            | true => exact absurd hy h1
          refine ⟨gc, rfl, hb, ?_, h3.symm⟩
          cases hx : dictGet wl.words (pyCapitalize w) with
          | none => rfl
          | some v => rw [hx] at h2; simp at h2

/-- Inversion of a successful `update_weight`: the word was present, the row
transformation succeeded, and the result is the input list with the row
written back. -/
theorem update_ok_inversion {wl wl' : WordList} {word : String} {b : Bool}
    (h : wl.update_weight word b = .ok wl') :
    ∃ row r', dictGet wl.words word = some row ∧
      updateRow wl.nGenders row b = .ok r' ∧
      wl' = { wl with words := dictSet wl.words word r' } := by
  cases hg : dictGet wl.words word with
  | none =>
      simp only [WordList.update_weight, hg] at h
      exact absurd h (by simp)
  | some row =>
      simp only [WordList.update_weight, hg] at h
      cases hu : updateRow wl.nGenders row b with
      | error e =>
          rw [hu] at h
          exact absurd h (by simp [Except.map])
      | ok r' =>
          rw [hu] at h
          simp only [Except.map, Except.ok.injEq] at h
          exact ⟨row, r', rfl, hu, h.symm⟩

/-- The wordlists reachable by the program: a `new` table with a non-empty
gender configuration and positive `score_inertia` (the documented
precondition), mutated by any sequence of successful `add` and
`update_weight` calls. -/
inductive Reachable : WordList → Prop where
  | base (genders : List (String × String)) (scoreInertia : Int)
      (hg : genders ≠ []) (hs : 0 < scoreInertia) :
      Reachable (WordList.new genders scoreInertia)
  | add_step (wl wl' : WordList) (g w : String) (h : Reachable wl)
      (ha : wl.add g w = .ok wl') : Reachable wl'
  | update_step (wl wl' : WordList) (w : String) (b : Bool) (h : Reachable wl)
      (hu : wl.update_weight w b = .ok wl') : Reachable wl'

/-- Every reachable wordlist keeps its configuration and has only records
with non-negative `Wrong` counts. -/
theorem reachable_invariant (wl : WordList) (h : Reachable wl) :
    0 < wl.struct.defaultGuesses ∧ wl.struct.genders ≠ [] ∧
      ∀ p ∈ wl.words, 0 ≤ p.2.wrong := by
  induction h with
  | base genders si hg hs =>
      refine ⟨hs, hg, ?_⟩
      intro p hp
      simp [WordList.new] at hp
  | add_step wl wl' g w h ha ih =>
      obtain ⟨gc, hfm, hne, hw0, hwl'⟩ := add_ok_inversion ha
      subst hwl'
      refine ⟨ih.1, ih.2.1, ?_⟩
      intro p hp
      rcases mem_dictSet hp with h1 | h2
      · rw [h1]
        simp only [freshRow]
        have hpos : 0 < wl.struct.genders.length := List.length_pos.mpr ih.2.1
        have hd := ih.1
        exact mul_nonneg (by omega) (by omega)
      · exact ih.2.2 p h2
  | update_step wl wl' w b h hu ih =>
      obtain ⟨row, r', hget, hup, hwl'⟩ := update_ok_inversion hu
      subst hwl'
      refine ⟨ih.1, ih.2.1, ?_⟩
      intro p hp
      rcases mem_dictSet hp with h1 | h2
      · rw [h1]
        exact updateRow_wrong_nonneg (ih.2.2 _ (dictGet_eq_some_mem hget)) hup
      · exact ih.2.2 p h2

/-- C3: for every record of every wordlist reachable by any sequence of
`add` and `update_weight` calls (from a `new` table with non-empty genders
and positive `score_inertia`), the stored `Wrong` count is never below
zero.  In particular no successful `update_weight` ever leaves a negative
`wrong`; the only path that would drive it negative — the `Correct == 0`
decay branch — raises `AttributeError` before writing anything back. -/
theorem update_weight_never_negative_wrong (wl : WordList) (h : Reachable wl)
    (word : String) (r : Row) (hr : dictGet wl.words word = some r) :
    0 ≤ r.wrong :=
  (reachable_invariant wl h).2.2 (word, r) (dictGet_eq_some_mem hr)

/-- Witness for C3: the record of `wlHund`, reached by `new` then
`add("der", "hund")`. -/
theorem update_weight_never_negative_wrong_witness :
    (0 : Int) ≤ (freshRow defaultWordList.struct "masculine").wrong :=
  update_weight_never_negative_wrong wlHund
    (Reachable.add_step defaultWordList wlHund "der" "hund"
      (Reachable.base GERMAN_GENDERS 2 (by decide) (by decide)) (by rfl))
    "Hund" (freshRow defaultWordList.struct "masculine") (by rfl)

/-- C7: after a successful `add` of a word, adding ANY casing variant of
that word (any string with the same `str.lower()` image, hence the same
capitalized normal form) with any valid gender fails with the
duplicate-word error.  The raise happens before any mutation — in the
embedding an erroring `add` returns no new table, mirroring that the
source raises before its single `self.words.loc[word] = row` write — so
the table is unchanged by the failing call. -/
theorem add_other_casing_duplicate (wl wl1 : WordList) (g1 s g2 t gc2 : String)
    (hcase : pyLower s = pyLower t)
    (h1 : wl.add g1 s = .ok wl1)
    (hg2 : wl1.format_gender g2 = .ok gc2)
    (hgc2 : (dictGet wl1.struct.genders gc2).isSome = true) :
    wl1.add g2 t = .error (.duplicateWord (pyCapitalize t)) := by
  obtain ⟨gc1, hfm1, hne1, hw1, hwl1⟩ := add_ok_inversion h1
  have hcap := pyCapitalize_eq_of_pyLower_eq hcase
  have hdup : (dictGet wl1.words (pyCapitalize t)).isSome = true := by
    rw [hwl1, ← hcap]
    rw [dictGet_dictSet_self]
    rfl
  have hn2 : (dictGet wl1.struct.genders gc2).isNone = false := by
    cases hx : dictGet wl1.struct.genders gc2 with
    | none => rw [hx] at hgc2; simp at hgc2
    | some v => rfl
  simp only [WordList.add, hg2, hn2, hdup, Bool.false_eq_true, if_false, if_true]

/-- Witness for C7: `wlHund` holds `Hund`; adding `HUND` (with the valid
gender `das`) fails with the duplicate-word error. -/
theorem add_other_casing_duplicate_witness :
    wlHund.add "das" "HUND" = .error (.duplicateWord (pyCapitalize "HUND")) :=
  add_other_casing_duplicate defaultWordList wlHund "der" "hund" "das" "HUND" "neuter"
    (by decide) (by rfl) (by decide) (by decide)
